import Mathlib

/-!
Shallow embedding of the lwan static-file-serving subsystem
(src/lwan-serve-files.c and src/lwan-thread.c), together with proofs
about its range logic, conditional-GET logic, cache-entry construction,
and the per-thread death queue.

External collaborators (the cache container, zlib, the OS) are modelled
as oracle parameters: every possible outcome of an external call is a
parameter of the embedded function, so theorems quantify over all of
their behaviours.
-/

/-- HTTP status codes used by the file-serving paths (lwan_http_status_t). -/
inductive lwan_http_status_t where
  | HTTP_OK
  | HTTP_PARTIAL_CONTENT
  | HTTP_NOT_MODIFIED
  | HTTP_RANGE_UNSATISFIABLE
  | HTTP_NOT_FOUND
  | HTTP_FORBIDDEN
  | HTTP_UNAVAILABLE
  | HTTP_INTERNAL_ERROR
deriving DecidableEq, Repr

/-- Per-connection request state (lwan_request_t): the parsed conditional
headers used by the serve functions, and the flag/timestamp fields used by
the per-thread event loop and death queue.  `if_modified_since = 0` models
the absent header (the C code tests the time_t for truthiness);
`range_from`/`range_to` are `-1` when the Range header is absent.
`coro_fresh` is the attached coroutine's continuation point: true when the
coroutine has been created by coro_new but its body (_process_request_coro)
has not yet started running, false once it has been resumed at least once. -/
structure lwan_request_t where
  if_modified_since : Int := 0
  range_from : Int := -1
  range_to : Int := -1
  method_head : Bool := false
  accept_deflate : Bool := false
  time_to_die : Nat := 0
  alive : Bool := false
  should_resume_coro : Bool := false
  write_events : Bool := false
  is_keep_alive : Bool := false
  has_coro : Bool := false
  coro_fresh : Bool := false
  fd_open : Bool := true
deriving DecidableEq, Repr

/-- Embeds _client_has_fresh_content: the If-Modified-Since header is set
(nonzero) and the entry's mtime is not newer than it. -/
def _client_has_fresh_content (request : lwan_request_t) (mtime : Int) : Bool :=
  (request.if_modified_since != 0) && decide (mtime ≤ request.if_modified_since)

/-- Embeds _compute_range.  `f`/`t` are the pre-parsed Range endpoints
(request->header.range.from/.to, each -1 when absent), `size` the resource
size.  `fromOut`/`toOut` model the caller's out-parameters: the C function
returns without writing them on the unsatisfiable paths, so the embedding
threads their previous values through. -/
def _compute_range (f t size fromOut toOut : Int) :
    lwan_http_status_t × Int × Int :=
  if t ≤ 0 ∧ f ≤ 0 then
    (.HTTP_OK, 0, size)
  else if t ≥ f then
    (.HTTP_RANGE_UNSATISFIABLE, fromOut, toOut)
  else if f ≥ size ∨ t ≥ size then
    (.HTTP_RANGE_UNSATISFIABLE, fromOut, toOut)
  else
    let t2 := if t < 0 then size - f else t - f
    if t2 ≤ 0 then (.HTTP_RANGE_UNSATISFIABLE, fromOut, toOut)
    else (.HTTP_PARTIAL_CONTENT, f, t2)

/-- Range computation exactly as claim C2 states the spec step list: the
first step fires only when both endpoints are absent (both equal -1). -/
def claim_range_steps (f t size fromOut toOut : Int) :
    lwan_http_status_t × Int × Int :=
  if f = -1 ∧ t = -1 then
    (.HTTP_OK, 0, size)
  else if t ≥ f then
    (.HTTP_RANGE_UNSATISFIABLE, fromOut, toOut)
  else if f ≥ size ∨ t ≥ size then
    (.HTTP_RANGE_UNSATISFIABLE, fromOut, toOut)
  else
    let length := if t < 0 then size - f else t - f
    if length ≤ 0 then (.HTTP_RANGE_UNSATISFIABLE, fromOut, toOut)
    else (.HTTP_PARTIAL_CONTENT, f, length)

/-- Range computation as the amended claim C2 states it: the first step
treats any request with to ≤ 0 and from ≤ 0 (which covers the both-absent
case from = to = -1) as a full-range request. -/
def amended_range_steps (f t size fromOut toOut : Int) :
    lwan_http_status_t × Int × Int :=
  if t ≤ 0 ∧ f ≤ 0 then
    (.HTTP_OK, 0, size)
  else if t ≥ f then
    (.HTTP_RANGE_UNSATISFIABLE, fromOut, toOut)
  else if f ≥ size ∨ t ≥ size then
    (.HTTP_RANGE_UNSATISFIABLE, fromOut, toOut)
  else
    let length := if t < 0 then size - f else t - f
    if length ≤ 0 then (.HTTP_RANGE_UNSATISFIABLE, fromOut, toOut)
    else (.HTTP_PARTIAL_CONTENT, f, length)

/-- Errors returned by the fd-bounded open helper (lwan_openat), as mapped
by _sendfile_serve. -/
inductive open_err where
  | eacces
  | enfile
  | other_err
deriving DecidableEq, Repr

/-- Oracle for the external calls a serve function makes.  `header_ok`
models lwan_prepare_response_header returning a nonzero length; the write
flags model the success of the corresponding socket call; `open_result`
is the outcome of lwan_openat (`none` = success). -/
structure serve_oracle_t where
  header_ok : Bool := true
  write_ok : Bool := true
  open_result : Option open_err := none
  send_ok : Bool := true
  sendfile_ok : Bool := true
  writev_ok : Bool := true
deriving DecidableEq, Repr

/-- Result of a serve function: the returned status, whether the response
headers were written to the socket, and the body bytes written. -/
structure serve_result_t where
  status : lwan_http_status_t
  header_written : Bool
  body : List Nat
deriving DecidableEq, Repr

/-- Payload of an InMemory (mmap) cache entry (mmap_cache_data_t): the
uncompressed bytes and the optional deflate-compressed copy, with both
sizes kept as stored by the C struct. -/
structure mmap_cache_data_t where
  compressed_contents : Option (List Nat) := none
  compressed_size : Nat := 0
  uncompressed_contents : List Nat := []
  uncompressed_size : Nat := 0
deriving DecidableEq, Repr

/-- Embeds the C constant sizeof "Content-Encoding: deflate", which counts
the terminating NUL: 25 characters plus 1. -/
def deflated_header_size : Nat := 26

/-- Embeds _compress_cached_entry.  `malloc_ok` models the malloc of the
compressBound-sized buffer; `compress_result` models zlib compress
(`none` = Z_OK not returned, `some comp` = success with output `comp`).
The compressed copy is kept only when compressed size plus
deflated_header_size is strictly below the uncompressed size; otherwise
the buffer is freed and the compressed size zeroed. -/
def _compress_cached_entry (malloc_ok : Bool) (compress_result : Option (List Nat))
    (md : mmap_cache_data_t) : mmap_cache_data_t :=
  if !malloc_ok then
    { md with compressed_contents := none, compressed_size := 0 }
  else
    match compress_result with
    | none => { md with compressed_contents := none, compressed_size := 0 }
    | some comp =>
      if comp.length + deflated_header_size < md.uncompressed_size then
        { md with compressed_contents := some comp, compressed_size := comp.length }
      else
        { md with compressed_contents := none, compressed_size := 0 }

/-- Modelled from the spec: lwan_sendfile (src/lwan-sendfile.c is not part
of this tree) transfers the byte range from offset `frm`, of length `len`,
of the open file to the socket, per section 4.6 of the spec: the kernel
zero-copy transfer covers [from, from+length). -/
def lwan_sendfile_bytes (contents : List Nat) (frm len : Int) : List Nat :=
  (contents.drop frm.toNat).take len.toNat

/-- Embeds _mmap_serve: conditional-GET check, deflate variant selection,
header assembly, then either a header-only write (HEAD / Not-Modified) or
a two-iovec write of headers plus body. -/
def _mmap_serve (request : lwan_request_t) (mtime : Int) (md : mmap_cache_data_t)
    (o : serve_oracle_t) : serve_result_t :=
  let return_status :=
    if _client_has_fresh_content request mtime then
      lwan_http_status_t.HTTP_NOT_MODIFIED
    else lwan_http_status_t.HTTP_OK
  let deflated := request.accept_deflate && (md.compressed_size != 0)
  let contents := if deflated then md.compressed_contents.getD [] else md.uncompressed_contents
  if !o.header_ok then ⟨.HTTP_INTERNAL_ERROR, false, []⟩
  else if request.method_head || return_status = .HTTP_NOT_MODIFIED then
    if o.write_ok then ⟨return_status, true, []⟩
    else ⟨.HTTP_INTERNAL_ERROR, false, []⟩
  else
    if o.writev_ok then ⟨return_status, true, contents⟩
    else ⟨.HTTP_INTERNAL_ERROR, false, []⟩

/-- Embeds _sendfile_serve: range computation first (an unsatisfiable
range returns 416 before anything else), then the conditional-GET check,
header assembly, and either a header-only write or open + send +
zero-copy transfer with the errno mapping of lwan_openat failures. -/
def _sendfile_serve (request : lwan_request_t) (mtime : Int) (sd_size : Int)
    (file_contents : List Nat) (o : serve_oracle_t) : serve_result_t :=
  let cr := _compute_range request.range_from request.range_to sd_size 0 0
  if cr.1 = .HTTP_RANGE_UNSATISFIABLE then ⟨.HTTP_RANGE_UNSATISFIABLE, false, []⟩
  else
    let return_status :=
      if _client_has_fresh_content request mtime then
        lwan_http_status_t.HTTP_NOT_MODIFIED
      else cr.1
    if !o.header_ok then ⟨.HTTP_INTERNAL_ERROR, false, []⟩
    else if request.method_head || return_status = .HTTP_NOT_MODIFIED then
      if o.write_ok then ⟨return_status, true, []⟩
      else ⟨.HTTP_INTERNAL_ERROR, false, []⟩
    else
      match o.open_result with
      | some .eacces => ⟨.HTTP_FORBIDDEN, false, []⟩
      | some .enfile => ⟨.HTTP_UNAVAILABLE, false, []⟩
      | some .other_err => ⟨.HTTP_NOT_FOUND, false, []⟩
      | none =>
        if !o.send_ok then ⟨.HTTP_INTERNAL_ERROR, false, []⟩
        else if !o.sendfile_ok then ⟨.HTTP_INTERNAL_ERROR, true, []⟩
        else ⟨return_status, true, lwan_sendfile_bytes file_contents cr.2.1 cr.2.2⟩

/-- Embeds _dirlist_serve: same shape as _mmap_serve over the pre-rendered
directory listing buffer, never deflated. -/
def _dirlist_serve (request : lwan_request_t) (mtime : Int) (rendered : List Nat)
    (o : serve_oracle_t) : serve_result_t :=
  let return_status :=
    if _client_has_fresh_content request mtime then
      lwan_http_status_t.HTTP_NOT_MODIFIED
    else lwan_http_status_t.HTTP_OK
  if !o.header_ok then ⟨.HTTP_INTERNAL_ERROR, false, []⟩
  else if request.method_head || return_status = .HTTP_NOT_MODIFIED then
    if o.write_ok then ⟨return_status, true, []⟩
    else ⟨.HTTP_INTERNAL_ERROR, false, []⟩
  else
    if o.writev_ok then ⟨return_status, true, rendered⟩
    else ⟨.HTTP_INTERNAL_ERROR, false, []⟩

/-- Per-strategy payload of a cache entry: the three transmission
strategies of the file cache. -/
inductive cache_payload_t where
  | in_memory (md : mmap_cache_data_t)
  | zero_copy (size : Int) (contents : List Nat)
  | dir_listing (rendered : List Nat)
deriving DecidableEq, Repr

/-- Dispatch of fce->funcs->serve on the entry's strategy. -/
def serve_cache_entry (request : lwan_request_t) (mtime : Int)
    (p : cache_payload_t) (o : serve_oracle_t) : serve_result_t :=
  match p with
  | .in_memory md => _mmap_serve request mtime md o
  | .zero_copy size contents => _sendfile_serve request mtime size contents o
  | .dir_listing rendered => _dirlist_serve request mtime rendered o

/-- True when the request carries a Range that the entry's serve path
rejects as unsatisfiable: only the ZeroCopy strategy computes a range. -/
def range_rejected (request : lwan_request_t) (p : cache_payload_t) : Bool :=
  match p with
  | .zero_copy size _ =>
    decide ((_compute_range request.range_from request.range_to size 0 0).1 =
      .HTTP_RANGE_UNSATISFIABLE)
  | _ => false

/-- Embeds serve_files_handle_cb: strip leading slashes from the URL, do
one cache lookup with the stripped key, answer 200 on a hit and 404 on a
miss (500 when the handler has no private data).  The second component
records every key looked up in the cache, in order. -/
def serve_files_handle_cb (priv_ok : Bool)
    (lookup : List Char → Option cache_payload_t) (url : List Char) :
    lwan_http_status_t × List (List Char) :=
  if !priv_ok then (.HTTP_INTERNAL_ERROR, [])
  else
    let key := url.dropWhile (fun c => c == '/')
    match lookup key with
    | some _ => (.HTTP_OK, [key])
    | none => (.HTTP_NOT_FOUND, [key])

/-- True when the character list contains the substring "/../". -/
def has_dotdot : List Char → Bool
  | '/' :: '.' :: '.' :: '/' :: _ => true
  | _ :: rest => has_dotdot rest
  | [] => false

/-- Result of a stat/fstatat call: the fields the serve-files code reads. -/
structure stat_t where
  st_size : Int := 0
  st_mtime : Int := 0
  is_dir : Bool := false
deriving DecidableEq, Repr

/-- Errno values distinguished by _get_data_size_and_funcs: ENOENT is the
only one tolerated when the index file of a directory is missing. -/
inductive errno_t where
  | ENOENT
  | EOTHER
deriving DecidableEq, Repr

/-- The three cache_funcs_t tables: the strategy discriminant of an entry. -/
inductive cache_funcs_t where
  | mmap_funcs
  | sendfile_funcs
  | dirlist_funcs
deriving DecidableEq, Repr

/-- Embeds _get_data_size_and_funcs.  For a non-directory the strategy is
chosen by size (below 16384 bytes: mmap, otherwise sendfile).  For a
directory, `index_stat` is the oracle for the fstatat of the index file
path: ENOENT selects the directory-listing strategy, any other error fails,
and success replaces the stat with the index file's and rewrites the full
path to root ++ "/" ++ index path before the size choice.  Returns the
chosen funcs table, the (possibly rewritten) full path handed to init, and
the stat whose mtime becomes the entry's last-modified. -/
def _get_data_size_and_funcs (root_len : Nat) (index_html_path : List Char)
    (full_path : List Char) (st : stat_t) (index_stat : Except errno_t stat_t) :
    Option (cache_funcs_t × List Char × stat_t) :=
  if !st.is_dir then
    if st.st_size < 16384 then some (.mmap_funcs, full_path, st)
    else some (.sendfile_funcs, full_path, st)
  else
    match index_stat with
    | .error e =>
      if e = .ENOENT then some (.dirlist_funcs, full_path, st) else none
    | .ok st2 =>
      let fp := full_path.take root_len ++ '/' :: index_html_path
      if st2.st_size < 16384 then some (.mmap_funcs, fp, st2)
      else some (.sendfile_funcs, fp, st2)

/-- A constructed file cache entry: strategy, the full path its init saw,
and the last-modified epoch copied from the stat. -/
structure file_cache_entry_t where
  funcs : cache_funcs_t
  full_path : List Char
  last_modified : Int
deriving DecidableEq, Repr

/-- Embeds _create_cache_entry.  `realpath_result` is the oracle for
realpathat2 (canonical absolute path and stat of the resolved key, or
failure); `index_stat` the oracle for the index-file fstatat;
`malloc_ok`/`init_ok` model the allocation and the strategy init call.
The entry is created only when the canonical path passes the
strncmp byte-prefix check against the root path. -/
def _create_cache_entry (root key index_html : List Char)
    (realpath_result : Option (List Char × stat_t))
    (index_stat : Except errno_t stat_t)
    (malloc_ok init_ok : Bool) : Option file_cache_entry_t :=
  match realpath_result with
  | none => none
  | some (full_path, st) =>
    if full_path.take root.length = root then
      let index_html_path := if key.isEmpty then index_html else key ++ '/' :: index_html
      match _get_data_size_and_funcs root.length index_html_path full_path st index_stat with
      | none => none
      | some (funcs, fp, st2) =>
        if malloc_ok then
          if init_ok then some ⟨funcs, fp, st2.st_mtime⟩ else none
        else none
    else none

/-- Byte-prefix relation used by the strncmp check: `a` is an initial run
of the bytes of `b`. -/
def byte_pref (a b : List Char) : Prop := b.take a.length = a

instance (a b : List Char) : Decidable (byte_pref a b) :=
  inferInstanceAs (Decidable (b.take a.length = a))

/-- Strict (proper) byte-prefix: a byte-prefix that is not the whole path. -/
def strict_byte_pref (a b : List Char) : Prop := byte_pref a b ∧ a ≠ b

instance (a b : List Char) : Decidable (strict_byte_pref a b) :=
  inferInstanceAs (Decidable (byte_pref a b ∧ a ≠ b))

/-- Pointwise update of the dense fd-indexed request table. -/
def upd_req (reqs : Nat → lwan_request_t) (fd : Nat) (r : lwan_request_t) :
    Nat → lwan_request_t :=
  fun fd2 => if fd2 = fd then r else reqs fd2

/-- Embeds _cleanup_coro: frees the coroutine unless there is none or it
should still be resumed. -/
def _cleanup_coro (r : lwan_request_t) : lwan_request_t :=
  if !r.has_coro || r.should_resume_coro then r
  else { r with has_coro := false }

/-- The per-thread death queue: the fds queued front-first, plus the
logical clock.  The C ring buffer of capacity max_fd is modelled as the
list of its occupied slots in FIFO order. -/
structure death_queue_t where
  queue : List Nat
  time : Nat
deriving DecidableEq, Repr

/-- Loop body of _death_queue_kill_waiting: pop from the front while the
front request's time_to_die is at most `time`; a popped request whose
alive flag was already cleared is skipped; otherwise its coroutine is
cleaned up, its alive flag cleared and its fd closed.  Returns the final
request table, the remaining queue, and the fds closed, in order. -/
def _death_queue_kill_loop (time : Nat) :
    (Nat → lwan_request_t) → List Nat →
      (Nat → lwan_request_t) × List Nat × List Nat
  | reqs, [] => (reqs, [], [])
  | reqs, fd :: rest =>
    let r := reqs fd
    if time < r.time_to_die then (reqs, fd :: rest, [])
    else if !r.alive then _death_queue_kill_loop time reqs rest
    else
      let r2 := _cleanup_coro r
      let r3 := { r2 with alive := false, fd_open := false }
      let res := _death_queue_kill_loop time (upd_req reqs fd r3) rest
      (res.1, res.2.1, fd :: res.2.2)

/-- Embeds _death_queue_kill_waiting: increment the clock, then run the
reaping loop. -/
def _death_queue_kill_waiting (dq : death_queue_t)
    (reqs : Nat → lwan_request_t) :
    death_queue_t × (Nat → lwan_request_t) × List Nat :=
  let time := dq.time + 1
  let res := _death_queue_kill_loop time reqs dq.queue
  (⟨res.2.1, time⟩, res.1, res.2.2)

/-- Request of scenario 3 of the spec: Range bytes=0-99 pre-parsed as
from = 0, to = 99, no conditional headers. -/
def c1_request : lwan_request_t := { range_from := 0, range_to := 99 }

/-- Request with If-Modified-Since equal to the entry mtime used below and
the Range bytes=0-99. -/
def c3_request : lwan_request_t :=
  { if_modified_since := 5, range_from := 0, range_to := 99 }

/-- Small InMemory payload whose uncompressed size is 10 bytes. -/
def c5_md : mmap_cache_data_t := { uncompressed_size := 10 }

/-- Concrete request table: fd 1 expires at clock 1, fd 2 at clock 5,
both alive. -/
def c8_reqs : Nat → lwan_request_t := fun fd =>
  if fd = 1 then { time_to_die := 1, alive := true, has_coro := true }
  else if fd = 2 then { time_to_die := 5, alive := true }
  else {}

/-- C1: the claim states that a Range with pre-parsed from = a, to = b and
0 ≤ a < b ≤ S is satisfied, and in particular that bytes=0-99 over a
20,000-byte ZeroCopy resource succeeds with a 100-byte body.  The code
does the opposite: _compute_range returns HTTP_RANGE_UNSATISFIABLE for
every such range (its second guard rejects any to ≥ from), so
_sendfile_serve answers 416 with no headers and no body bytes for
bytes=0-99 over the 20,000-byte resource. -/
theorem C1_range_0_99_rejected :
    _compute_range 0 99 20000 0 0 = (.HTTP_RANGE_UNSATISFIABLE, 0, 0) ∧
    (_sendfile_serve c1_request 0 20000 (List.replicate 20000 0) {}).status =
      .HTTP_RANGE_UNSATISFIABLE ∧
    (_sendfile_serve c1_request 0 20000 (List.replicate 20000 0) {}).header_written
      = false ∧
    (_sendfile_serve c1_request 0 20000 (List.replicate 20000 0) {}).body = [] := by
  refine ⟨by decide, ?_, ?_, ?_⟩ <;> rfl

/-- C2 counterexample: the claim's step list keys its first step on both
endpoints being absent (from = to = -1), so for the pre-parsed range
from = 0, to = 0 it reaches the `to ≥ from` step and yields 416; the code
instead treats any to ≤ 0 ∧ from ≤ 0 as a full-range request and returns
HTTP_OK with [0, size). -/
theorem C2_counterexample_from0_to0 :
    claim_range_steps 0 0 100 7 7 = (.HTTP_RANGE_UNSATISFIABLE, 7, 7) ∧
    _compute_range 0 0 100 7 7 = (.HTTP_OK, 0, 100) ∧
    claim_range_steps 0 0 100 7 7 ≠ _compute_range 0 0 100 7 7 := by
  decide

/-- C2 amended: _compute_range follows the step list with the first step
amended to fire whenever to ≤ 0 and from ≤ 0 (full range [0, size), OK);
then to ≥ from yields 416; from ≥ size or to ≥ size yields 416; to < 0
sets length := size - from, else length := to - from; length ≤ 0 yields
416; otherwise it yields [from, from+length) with Partial Content,
writing (from, length) into the out-parameters. -/
theorem C2_range_follows_amended_steps (f t size fromOut toOut : Int) :
    _compute_range f t size fromOut toOut =
      amended_range_steps f t size fromOut toOut := rfl

/-- C10: when _compute_range returns HTTP_RANGE_UNSATISFIABLE it writes
neither out-parameter (the caller's from/to keep their previous values);
on the OK and Partial Content outcomes both outputs are assigned values
that do not depend on their previous contents. -/
theorem C10_unsatisfiable_frame (f t size a b : Int) :
    (_compute_range f t size a b).2 =
      (if (_compute_range f t size a b).1 = .HTTP_RANGE_UNSATISFIABLE then (a, b)
       else (_compute_range f t size 0 0).2) := by
  unfold _compute_range
  split
  · rfl
  · split
    · rfl
    · split
      · rfl
      · split
        · by_cases h2 : size - f ≤ 0
          · simp [h2]
          · simp [h2]
        · by_cases h2 : t - f ≤ 0
          · simp [h2]
          · simp [h2]

/-- C5: after _compress_cached_entry runs on an InMemory entry under any
outcome of malloc and zlib compress, either the stored compressed size is
zero, or compressed size plus the Content-Encoding: deflate header cost
is strictly below the uncompressed size; and whenever the compressed form
is not strictly beneficial the compressed buffer is freed (set to none)
and the compressed size zeroed. -/
theorem C5_compression_invariant (malloc_ok : Bool)
    (compress_result : Option (List Nat)) (md : mmap_cache_data_t) :
    ((_compress_cached_entry malloc_ok compress_result md).compressed_size = 0 ∨
      (_compress_cached_entry malloc_ok compress_result md).compressed_size +
          deflated_header_size <
        (_compress_cached_entry malloc_ok compress_result md).uncompressed_size) ∧
    (∀ comp, compress_result = some comp → malloc_ok = true →
      ¬ (comp.length + deflated_header_size < md.uncompressed_size) →
      (_compress_cached_entry malloc_ok compress_result md).compressed_contents
          = none ∧
      (_compress_cached_entry malloc_ok compress_result md).compressed_size = 0) := by
  constructor
  · unfold _compress_cached_entry
    cases malloc_ok with
    | false => simp
    | true =>
      cases compress_result with
      | none => simp
      | some comp =>
        by_cases h : comp.length + deflated_header_size < md.uncompressed_size
        · simp only [Bool.not_true, Bool.false_eq_true, if_false, if_pos h]
          exact Or.inr h
        · simp [h]
  · intro comp hc hm hlt
    subst hc
    subst hm
    unfold _compress_cached_entry
    simp [hlt]

/-- C5 witness: a 3-byte compression result for a 10-byte entry is not
beneficial (3 + 26 ≥ 10), so the entry ends with no compressed variant. -/
theorem C5_compression_invariant_witness :
    ((_compress_cached_entry true (some [1, 2, 3]) c5_md).compressed_size = 0 ∨
      (_compress_cached_entry true (some [1, 2, 3]) c5_md).compressed_size +
          deflated_header_size <
        (_compress_cached_entry true (some [1, 2, 3]) c5_md).uncompressed_size) ∧
    ((_compress_cached_entry true (some [1, 2, 3]) c5_md).compressed_contents
        = none ∧
      (_compress_cached_entry true (some [1, 2, 3]) c5_md).compressed_size = 0) :=
  ⟨(C5_compression_invariant true (some [1, 2, 3]) c5_md).1,
   (C5_compression_invariant true (some [1, 2, 3]) c5_md).2 [1, 2, 3] rfl rfl
     (by decide)⟩

/-- C6: strategy selection in _get_data_size_and_funcs.  A directory whose
index-file stat fails with ENOENT (and only ENOENT) selects the
directory-listing strategy; any other stat error fails construction; a
non-directory of size below 16384 selects mmap, otherwise sendfile; and a
directory whose index file exists selects by the index file's size. -/
theorem C6_strategy_selection (root_len : Nat) (ihp fp : List Char)
    (st : stat_t) (ist : Except errno_t stat_t) :
    (st.is_dir = true → ist = .error .ENOENT →
      (_get_data_size_and_funcs root_len ihp fp st ist).map (fun x => x.1) =
        some .dirlist_funcs) ∧
    (st.is_dir = true → ∀ e, ist = .error e → e ≠ .ENOENT →
      _get_data_size_and_funcs root_len ihp fp st ist = none) ∧
    (st.is_dir = false → st.st_size < 16384 →
      (_get_data_size_and_funcs root_len ihp fp st ist).map (fun x => x.1) =
        some .mmap_funcs) ∧
    (st.is_dir = false → 16384 ≤ st.st_size →
      (_get_data_size_and_funcs root_len ihp fp st ist).map (fun x => x.1) =
        some .sendfile_funcs) ∧
    (st.is_dir = true → ∀ st2, ist = .ok st2 → st2.st_size < 16384 →
      (_get_data_size_and_funcs root_len ihp fp st ist).map (fun x => x.1) =
        some .mmap_funcs) ∧
    (st.is_dir = true → ∀ st2, ist = .ok st2 → 16384 ≤ st2.st_size →
      (_get_data_size_and_funcs root_len ihp fp st ist).map (fun x => x.1) =
        some .sendfile_funcs) := by
  refine ⟨?_, ?_, ?_, ?_, ?_, ?_⟩
  · intro hdir hist
    subst hist
    unfold _get_data_size_and_funcs
    simp [hdir]
  · intro hdir e hist hne
    subst hist
    unfold _get_data_size_and_funcs
    simp [hdir, hne]
  · intro hdir hsz
    unfold _get_data_size_and_funcs
    simp [hdir, hsz]
  · intro hdir hsz
    unfold _get_data_size_and_funcs
    simp [hdir, hsz, Int.not_lt.mpr hsz]
  · intro hdir st2 hist hsz
    subst hist
    unfold _get_data_size_and_funcs
    simp [hdir, hsz]
  · intro hdir st2 hist hsz
    subst hist
    unfold _get_data_size_and_funcs
    simp [hdir, Int.not_lt.mpr hsz]

/-- C6 witness: a directory with a missing index file (ENOENT) yields the
directory-listing strategy; a 6-byte regular file yields mmap; a 20,000
byte regular file yields sendfile. -/
theorem C6_strategy_selection_witness :
    (_get_data_size_and_funcs 2 [] [] { is_dir := true }
        (.error .ENOENT)).map (fun x => x.1) = some .dirlist_funcs ∧
    (_get_data_size_and_funcs 2 [] [] { st_size := 6 }
        (.error .ENOENT)).map (fun x => x.1) = some .mmap_funcs ∧
    (_get_data_size_and_funcs 2 [] [] { st_size := 20000 }
        (.error .ENOENT)).map (fun x => x.1) = some .sendfile_funcs :=
  ⟨(C6_strategy_selection 2 [] [] { is_dir := true } (.error .ENOENT)).1 rfl rfl,
   (C6_strategy_selection 2 [] [] { st_size := 6 } (.error .ENOENT)).2.2.1 rfl
     (by decide),
   (C6_strategy_selection 2 [] [] { st_size := 20000 } (.error .ENOENT)).2.2.2.1 rfl
     (by decide)⟩

/-- C4 counterexample: for a URL containing "/../" whose key misses the
cache, the handler does a single lookup (the recorded lookup list has
exactly the one stripped key) and answers 404 immediately; the claim's
required second, re-resolved lookup never happens. -/
theorem C4_counterexample_dotdot :
    has_dotdot ("x/../y".toList) = true ∧
    serve_files_handle_cb true (fun _ => none) ("x/../y".toList) =
      (.HTTP_NOT_FOUND, ["x/../y".toList]) := by
  decide

/-- C4 amended: serve_files_handle_cb performs exactly one cache lookup,
with the slash-stripped URL as key, and when that lookup yields no entry
it answers 404 immediately for every URL, with no "/../" re-resolution
and no retry. -/
theorem C4_no_entry_immediate_404 (lookup : List Char → Option cache_payload_t)
    (url : List Char) :
    lookup (url.dropWhile (fun c => c == '/')) = none →
    serve_files_handle_cb true lookup url =
      (.HTTP_NOT_FOUND, [url.dropWhile (fun c => c == '/')]) := by
  intro h
  unfold serve_files_handle_cb
  simp [h]

/-- C4 witness: a miss on the key "sub/dir" is answered 404 with the one
recorded lookup. -/
theorem C4_no_entry_immediate_404_witness :
    serve_files_handle_cb true (fun _ => none) ("sub/dir".toList) =
      (.HTTP_NOT_FOUND, ["sub/dir".toList]) :=
  C4_no_entry_immediate_404 (fun _ => none) ("sub/dir".toList) rfl

/-- Helper: any full path handed on by _get_data_size_and_funcs is either
the incoming canonical path or that path truncated at the root length with
"/" and the index path appended. -/
theorem get_funcs_path_cases (root_len : Nat) (ihp fp : List Char) (st : stat_t)
    (ist : Except errno_t stat_t) (fu : cache_funcs_t) (fp2 : List Char)
    (st2 : stat_t)
    (h : _get_data_size_and_funcs root_len ihp fp st ist = some (fu, fp2, st2)) :
    fp2 = fp ∨ fp2 = fp.take root_len ++ '/' :: ihp := by
  unfold _get_data_size_and_funcs at h
  by_cases hdir : st.is_dir
  · simp only [hdir, Bool.not_true, Bool.false_eq_true, if_false] at h
    cases ist with
    | error e =>
      by_cases he : e = errno_t.ENOENT
      · simp [he] at h
        exact Or.inl h.2.1.symm
      · simp [he] at h
    | ok stI =>
      by_cases hsz : stI.st_size < 16384
      · simp [hsz] at h
        exact Or.inr h.2.1.symm
      · simp [hsz] at h
        exact Or.inr h.2.1.symm
  · simp only [Bool.not_eq_true] at hdir
    simp only [hdir, Bool.not_false, if_true] at h
    by_cases hsz : st.st_size < 16384
    · simp [hsz] at h
      exact Or.inl h.2.1.symm
    · simp [hsz] at h
      exact Or.inl h.2.1.symm

/-- C7 amended: every successfully created cache entry carries a full path
of which the document root's canonical path is a byte-prefix (not
necessarily strict: resolving to the root directory itself yields the
root path exactly), and a key whose canonicalization escapes the root
byte-prefix never produces an entry. -/
theorem C7_root_prefix_of_entry (root key index_html : List Char)
    (rp : Option (List Char × stat_t)) (ist : Except errno_t stat_t)
    (m i : Bool) :
    (∀ e, _create_cache_entry root key index_html rp ist m i = some e →
      byte_pref root e.full_path) ∧
    (∀ fp st, rp = some (fp, st) → ¬ byte_pref root fp →
      _create_cache_entry root key index_html rp ist m i = none) := by
  constructor
  · intro e he
    cases rp with
    | none => simp [_create_cache_entry] at he
    | some pr =>
      obtain ⟨fp, st⟩ := pr
      simp only [_create_cache_entry] at he
      by_cases hpre : fp.take root.length = root
      · rw [if_pos hpre] at he
        rcases hg : _get_data_size_and_funcs root.length
            (if key.isEmpty then index_html else key ++ '/' :: index_html)
            fp st ist with _ | ⟨fu, fp2, st2⟩
        · rw [hg] at he
          simp at he
        · rw [hg] at he
          cases m with
          | false => simp at he
          | true =>
            cases i with
            | false => simp at he
            | true =>
              simp only [if_true] at he
              have hfull : e.full_path = fp2 := by
                cases he2 : e with
                | mk a b c =>
                  rw [he2] at he
                  simp at he
                  exact he.2.1.symm
              rcases get_funcs_path_cases root.length _ fp st ist fu fp2 st2 hg with
                h1 | h2
              · rw [hfull, h1]
                exact hpre
              · rw [hfull, h2, hpre]
                unfold byte_pref
                exact List.take_left root _
      · rw [if_neg hpre] at he
        exact Option.noConfusion he
  · intro fp st hrp hnp
    subst hrp
    have hnp2 : ¬ (fp.take root.length = root) := hnp
    simp only [_create_cache_entry]
    rw [if_neg hnp2]

/-- C7 witness: the key "a" resolving to "/r/a" under root "/r" yields an
entry whose path keeps the root byte-prefix, and a key resolving to
"/x/a" (escaping the prefix) yields no entry. -/
theorem C7_root_prefix_witness :
    byte_pref ("/r".toList)
      ((⟨.mmap_funcs, "/r/a".toList, 0⟩ : file_cache_entry_t).full_path) ∧
    _create_cache_entry ("/r".toList) ("a".toList) ("index.html".toList)
      (some (("/x/a".toList), ({} : stat_t))) (.error .ENOENT) true true = none :=
  ⟨(C7_root_prefix_of_entry ("/r".toList) ("a".toList) ("index.html".toList)
      (some (("/r/a".toList), ({} : stat_t))) (.error .ENOENT) true true).1
      ⟨.mmap_funcs, "/r/a".toList, 0⟩ (by decide),
   (C7_root_prefix_of_entry ("/r".toList) ("a".toList) ("index.html".toList)
      (some (("/x/a".toList), ({} : stat_t))) (.error .ENOENT) true true).2
      ("/x/a".toList) ({} : stat_t) rfl (by decide)⟩

/-- C7 counterexample: a key that canonicalizes to the root directory
itself (for example "."), with the index file absent, produces a
directory-listing entry whose full path equals the root path, so the root
path is a byte-prefix of it but not a strict one: the claim's "strict
byte-prefix" fails on a successfully created entry. -/
theorem C7_counterexample_root_itself :
    _create_cache_entry ("/r".toList) (".".toList) ("index.html".toList)
        (some (("/r".toList), ({ is_dir := true } : stat_t)))
        (.error .ENOENT) true true =
      some ⟨.dirlist_funcs, "/r".toList, 0⟩ ∧
    ¬ strict_byte_pref ("/r".toList) ("/r".toList) := by
  decide

/-- Helper: _compute_range only ever returns OK, Range-Unsatisfiable or
Partial Content; in particular never Not-Modified. -/
theorem compute_range_status_cases (f t size a b : Int) :
    (_compute_range f t size a b).1 = .HTTP_OK ∨
    (_compute_range f t size a b).1 = .HTTP_RANGE_UNSATISFIABLE ∨
    (_compute_range f t size a b).1 = .HTTP_PARTIAL_CONTENT := by
  unfold _compute_range
  split
  · exact Or.inl rfl
  · split
    · exact Or.inr (Or.inl rfl)
    · split
      · exact Or.inr (Or.inl rfl)
      · by_cases h2 : (if t < 0 then size - f else t - f) ≤ 0
        · simp [h2]
        · simp [h2]

/-- C3 amended: for any strategy, when If-Modified-Since is present and at
least the entry's mtime, the serve returns 304 with headers written and
zero body bytes, provided the header assembly and the header write
succeed and - for the ZeroCopy strategy - the request's Range is not
rejected first (an unsatisfiable range is answered 416 before the
freshness check); and when the header is absent the status is never 304,
under every oracle outcome. -/
theorem C3_if_modified_since (request : lwan_request_t) (mtime : Int)
    (p : cache_payload_t) (o : serve_oracle_t) :
    (_client_has_fresh_content request mtime = true →
      range_rejected request p = false →
      o.header_ok = true → o.write_ok = true →
      (serve_cache_entry request mtime p o).status = .HTTP_NOT_MODIFIED ∧
      (serve_cache_entry request mtime p o).header_written = true ∧
      (serve_cache_entry request mtime p o).body = []) ∧
    (request.if_modified_since = 0 →
      (serve_cache_entry request mtime p o).status ≠ .HTTP_NOT_MODIFIED) := by
  constructor
  · intro hfresh hrej hho hwo
    cases p with
    | in_memory md =>
      simp [serve_cache_entry, _mmap_serve, hfresh, hho, hwo]
    | zero_copy size contents =>
      simp only [range_rejected, decide_eq_false_iff_not] at hrej
      simp [serve_cache_entry, _sendfile_serve, hrej, hfresh, hho, hwo]
    | dir_listing rendered =>
      simp [serve_cache_entry, _dirlist_serve, hfresh, hho, hwo]
  · intro hims
    have hfresh : _client_has_fresh_content request mtime = false := by
      unfold _client_has_fresh_content
      simp [hims]
    cases p with
    | in_memory md =>
      cases hh : o.header_ok <;> cases hm : request.method_head <;>
        cases hw : o.write_ok <;> cases hv : o.writev_ok <;>
        simp [serve_cache_entry, _mmap_serve, hfresh, hh, hm, hw, hv]
    | zero_copy size contents =>
      rcases compute_range_status_cases request.range_from request.range_to
          size 0 0 with hcr | hcr | hcr <;>
        [skip; skip; skip] <;>
      · simp only [serve_cache_entry, _sendfile_serve, hcr, hfresh]
        cases hh : o.header_ok <;> cases hm : request.method_head <;>
          cases hw : o.write_ok <;> cases hs : o.send_ok <;>
          cases hsf : o.sendfile_ok <;>
          rcases hor : o.open_result with _ | (_ | _ | _) <;>
          simp [hh, hm, hw, hs, hsf, hor]
    | dir_listing rendered =>
      cases hh : o.header_ok <;> cases hm : request.method_head <;>
        cases hw : o.write_ok <;> cases hv : o.writev_ok <;>
        simp [serve_cache_entry, _dirlist_serve, hfresh, hh, hm, hw, hv]

/-- C3 counterexample: a ZeroCopy serve with If-Modified-Since = 5 and
entry mtime 5 (a conditional hit) but Range bytes=0-99 answers 416, not
the 304 the claim requires: the range check precedes the freshness
check in _sendfile_serve. -/
theorem C3_counterexample_range_beats_304 :
    _client_has_fresh_content c3_request 5 = true ∧
    (serve_cache_entry c3_request 5 (.zero_copy 20000 []) {}).status =
      .HTTP_RANGE_UNSATISFIABLE ∧
    (serve_cache_entry c3_request 5 (.zero_copy 20000 []) {}).status ≠
      .HTTP_NOT_MODIFIED := by
  decide

/-- C3 witness: a conditional hit on an InMemory entry yields 304 with
headers only, and a request without If-Modified-Since is never answered
304. -/
theorem C3_if_modified_since_witness :
    ((serve_cache_entry { if_modified_since := 9 } 5
        (.in_memory { uncompressed_contents := [1], uncompressed_size := 1 })
        {}).status = .HTTP_NOT_MODIFIED ∧
      (serve_cache_entry { if_modified_since := 9 } 5
        (.in_memory { uncompressed_contents := [1], uncompressed_size := 1 })
        {}).header_written = true ∧
      (serve_cache_entry { if_modified_since := 9 } 5
        (.in_memory { uncompressed_contents := [1], uncompressed_size := 1 })
        {}).body = []) ∧
    (serve_cache_entry {} 5
        (.in_memory { uncompressed_contents := [1], uncompressed_size := 1 })
        {}).status ≠ .HTTP_NOT_MODIFIED :=
  ⟨(C3_if_modified_since { if_modified_since := 9 } 5
      (.in_memory { uncompressed_contents := [1], uncompressed_size := 1 }) {}).1
      (by decide) rfl rfl rfl,
   (C3_if_modified_since {} 5
      (.in_memory { uncompressed_contents := [1], uncompressed_size := 1 }) {}).2
      rfl⟩

/-- Helper: _cleanup_coro does not change the deadline. -/
theorem cleanup_coro_ttd (r : lwan_request_t) :
    (_cleanup_coro r).time_to_die = r.time_to_die := by
  unfold _cleanup_coro
  split <;> rfl

/-- Helper: complete description of one run of the kill loop at clock
`time` over queue `q`.  The remaining queue is the dropWhile of the
expired prefix; every closed fd was expired and alive and ends dead with
its fd closed; untouched fds keep their state; and every popped fd was
either closed or already dead when popped. -/
theorem kill_loop_spec (time : Nat) (q : List Nat) :
    ∀ reqs : Nat → lwan_request_t,
    (_death_queue_kill_loop time reqs q).2.1 =
      q.dropWhile (fun fd => decide ((reqs fd).time_to_die ≤ time)) ∧
    (∀ fd, fd ∈ (_death_queue_kill_loop time reqs q).2.2 →
      (reqs fd).time_to_die ≤ time ∧ (reqs fd).alive = true) ∧
    (∀ fd, fd ∉ (_death_queue_kill_loop time reqs q).2.2 →
      (_death_queue_kill_loop time reqs q).1 fd = reqs fd) ∧
    (∀ fd, fd ∈ (_death_queue_kill_loop time reqs q).2.2 →
      ((_death_queue_kill_loop time reqs q).1 fd).alive = false ∧
      ((_death_queue_kill_loop time reqs q).1 fd).fd_open = false) ∧
    (∀ fd, fd ∈ q.takeWhile (fun fd => decide ((reqs fd).time_to_die ≤ time)) →
      fd ∈ (_death_queue_kill_loop time reqs q).2.2 ∨ (reqs fd).alive = false) := by
  induction q with
  | nil =>
    intro reqs
    simp [_death_queue_kill_loop]
  | cons fd rest ih =>
    intro reqs
    by_cases htime : time < (reqs fd).time_to_die
    · have hpred : ¬ ((reqs fd).time_to_die ≤ time) := Nat.not_le.mpr htime
      have heq : _death_queue_kill_loop time reqs (fd :: rest) =
          (reqs, fd :: rest, []) := by
        simp only [_death_queue_kill_loop, if_pos htime]
      rw [heq]
      refine ⟨?_, ?_, ?_, ?_, ?_⟩
      · simp [List.dropWhile_cons, hpred]
      · intro x hx
        simp at hx
      · intro x hx
        rfl
      · intro x hx
        simp at hx
      · intro x hx
        rw [List.takeWhile_cons] at hx
        simp [hpred] at hx
    · have h1 : (reqs fd).time_to_die ≤ time := Nat.not_lt.mp htime
      cases halive : (reqs fd).alive with
      | false =>
        have heq : _death_queue_kill_loop time reqs (fd :: rest) =
            _death_queue_kill_loop time reqs rest := by
          simp only [_death_queue_kill_loop, if_neg htime, halive, Bool.not_false,
            if_true]
        rw [heq]
        obtain ⟨ihq, ihc, ihu, ihd, iht⟩ := ih reqs
        refine ⟨?_, ihc, ihu, ihd, ?_⟩
        · rw [List.dropWhile_cons, if_pos (by simp [h1])]
          exact ihq
        · intro x hx
          rw [List.takeWhile_cons, if_pos (by simp [h1])] at hx
          rcases List.mem_cons.mp hx with rfl | hx2
          · exact Or.inr halive
          · exact iht x hx2
      | true =>
        set r3 : lwan_request_t :=
          { _cleanup_coro (reqs fd) with alive := false, fd_open := false } with hr3
        set reqs2 := upd_req reqs fd r3 with hreqs2
        have heq : _death_queue_kill_loop time reqs (fd :: rest) =
            ((_death_queue_kill_loop time reqs2 rest).1,
             (_death_queue_kill_loop time reqs2 rest).2.1,
             fd :: (_death_queue_kill_loop time reqs2 rest).2.2) := by
          rw [hreqs2, hr3]
          simp only [_death_queue_kill_loop, if_neg htime, halive, Bool.not_true,
            Bool.false_eq_true, if_false]
        rw [heq]
        have httd : ∀ x, (reqs2 x).time_to_die = (reqs x).time_to_die := by
          intro x
          by_cases hx : x = fd
          · subst hx
            simp [hreqs2, upd_req, hr3, cleanup_coro_ttd]
          · simp [hreqs2, upd_req, hx]
        have hpred : (fun x => decide ((reqs2 x).time_to_die ≤ time)) =
            (fun x => decide ((reqs x).time_to_die ≤ time)) := by
          funext x
          rw [httd]
        have hne : ∀ x, x ≠ fd → reqs2 x = reqs x := by
          intro x hx
          simp [hreqs2, upd_req, hx]
        have hat : reqs2 fd = r3 := by
          simp [hreqs2, upd_req]
        have hr3alive : r3.alive = false := by
          rw [hr3]
        have hr3open : r3.fd_open = false := by
          rw [hr3]
        obtain ⟨ihq, ihc, ihu, ihd, iht⟩ := ih reqs2
        refine ⟨?_, ?_, ?_, ?_, ?_⟩
        · rw [ihq, hpred, List.dropWhile_cons, if_pos (by simp [h1])]
        · intro x hx
          rcases List.mem_cons.mp hx with rfl | hx2
          · exact ⟨h1, halive⟩
          · have h2 := ihc x hx2
            by_cases hxf : x = fd
            · subst hxf
              rw [hat] at h2
              rw [hr3alive] at h2
              exact absurd h2.2 (by simp)
            · rw [hne x hxf] at h2
              exact h2
        · intro x hx
          have hxf : x ≠ fd := fun h => hx (h ▸ List.mem_cons_self fd _)
          have hx2 : x ∉ (_death_queue_kill_loop time reqs2 rest).2.2 :=
            fun h => hx (List.mem_cons_of_mem fd h)
          rw [ihu x hx2, hne x hxf]
        · intro x hx
          rcases List.mem_cons.mp hx with rfl | hx2
          · have hnotin : x ∉ (_death_queue_kill_loop time reqs2 rest).2.2 := by
              intro hmem
              have h2 := ihc x hmem
              rw [hat, hr3alive] at h2
              exact absurd h2.2 (by simp)
            rw [ihu x hnotin, hat]
            exact ⟨hr3alive, hr3open⟩
          · exact ihd x hx2
        · intro x hx
          rw [List.takeWhile_cons, if_pos (by simp [h1])] at hx
          rcases List.mem_cons.mp hx with rfl | hx2
          · exact Or.inl (List.mem_cons_self _ _)
          · have hx3 : x ∈ rest.takeWhile
                (fun y => decide ((reqs2 y).time_to_die ≤ time)) := by
              rw [hpred]
              exact hx2
            rcases iht x hx3 with hmem | hdead
            · exact Or.inl (List.mem_cons_of_mem fd hmem)
            · by_cases hxf : x = fd
              · subst hxf
                exact Or.inl (List.mem_cons_self _ _)
              · rw [hne x hxf] at hdead
                exact Or.inr hdead

/-- C8: _death_queue_kill_waiting first increments the clock; it then pops
from the front exactly while the front request's time_to_die is at most
the new clock (the remaining queue is the dropWhile of that prefix), it
closes only fds that were expired and alive (clearing their alive flag and
closing their fd), and every request it does not close - in particular
every popped entry whose alive flag a hangup had already cleared - is left
completely untouched. -/
theorem C8_kill_waiting (dq : death_queue_t) (reqs : Nat → lwan_request_t) :
    (_death_queue_kill_waiting dq reqs).1.time = dq.time + 1 ∧
    (_death_queue_kill_waiting dq reqs).1.queue =
      dq.queue.dropWhile
        (fun fd => decide ((reqs fd).time_to_die ≤ dq.time + 1)) ∧
    (∀ fd, fd ∈ (_death_queue_kill_waiting dq reqs).2.2 →
      (reqs fd).time_to_die ≤ dq.time + 1 ∧ (reqs fd).alive = true ∧
      ((_death_queue_kill_waiting dq reqs).2.1 fd).alive = false ∧
      ((_death_queue_kill_waiting dq reqs).2.1 fd).fd_open = false) ∧
    (∀ fd, fd ∉ (_death_queue_kill_waiting dq reqs).2.2 →
      (_death_queue_kill_waiting dq reqs).2.1 fd = reqs fd) := by
  obtain ⟨hq, hc, hu, hd, _⟩ := kill_loop_spec (dq.time + 1) dq.queue reqs
  refine ⟨rfl, hq, ?_, hu⟩
  intro fd hfd
  exact ⟨(hc fd hfd).1, (hc fd hfd).2, (hd fd hfd).1, (hd fd hfd).2⟩

/-- C8 witness: at clock 0 with queue [1, 2], fd 1 (deadline 1) is reaped
and closed while fd 2 (deadline 5) stays queued and untouched. -/
theorem C8_kill_waiting_witness :
    (_death_queue_kill_waiting ⟨[1, 2], 0⟩ c8_reqs).1.queue =
      ([1, 2].dropWhile
        (fun fd => decide ((c8_reqs fd).time_to_die ≤ 0 + 1))) ∧
    ((c8_reqs 1).time_to_die ≤ 0 + 1 ∧ (c8_reqs 1).alive = true ∧
      ((_death_queue_kill_waiting ⟨[1, 2], 0⟩ c8_reqs).2.1 1).alive = false ∧
      ((_death_queue_kill_waiting ⟨[1, 2], 0⟩ c8_reqs).2.1 1).fd_open = false) ∧
    (_death_queue_kill_waiting ⟨[1, 2], 0⟩ c8_reqs).2.1 2 = c8_reqs 2 :=
  ⟨(C8_kill_waiting ⟨[1, 2], 0⟩ c8_reqs).2.1,
   (C8_kill_waiting ⟨[1, 2], 0⟩ c8_reqs).2.2.1 1 (by decide),
   (C8_kill_waiting ⟨[1, 2], 0⟩ c8_reqs).2.2.2 2 (by decide)⟩

